import Mathlib

/-!
Verification of the GSImap2 overlay application (src/app.js).

The program is a Leaflet-based map viewer: an image overlay is placed on a
slippy map, resized by corner drag handles, moved by dragging a center
marker, and point markers are bulk-imported from fixed-width DMS strings.

Embedding conventions:
* JavaScript numbers are modelled exactly, over an arbitrary linearly
  ordered field `K` (so all theorems in particular hold over the reals);
  concrete witnesses instantiate `K` with the rationals.
* `Math.sqrt e` is modelled by passing the square-root value as an explicit
  argument characterized by `isSqrtOf e`; over the reals such a value always
  exists, so no generality is lost.
* DOM / Leaflet rendering calls are modelled as the data they carry
  (overlay bounds and opacity, handle positions, marker list).
-/

namespace GSImap

/-- A geographic point, Leaflet `L.latLng` (src/app.js uses `.lat`/`.lng`). -/
structure LatLng (K : Type) where
  lat : K
  lng : K
  deriving DecidableEq

/-- A pixel-space point, Leaflet `L.point` (`.x`/`.y`). -/
structure Pointxy (K : Type) where
  x : K
  y : K
  deriving DecidableEq

/-- A geographic bounding box, Leaflet `L.latLngBounds`, kept in the
normalized form `southWest = (south, west)`, `northEast = (north, east)`. -/
structure Bounds (K : Type) where
  south : K
  west : K
  north : K
  east : K
  deriving DecidableEq

section Geometry

variable {K : Type} [LinearOrderedField K]

/-- Leaflet `L.latLngBounds(c1, c2)`: the two corners are normalized by
taking componentwise minima for the south-west corner and maxima for the
north-east corner (Leaflet `LatLngBounds.extend`). -/
def latLngBounds (a b : LatLng K) : Bounds K :=
  ⟨min a.lat b.lat, min a.lng b.lng, max a.lat b.lat, max a.lng b.lng⟩

/-- Leaflet `LatLngBounds.getCenter`: midpoint of the corners. -/
def Bounds.getCenter (b : Bounds K) : LatLng K :=
  ⟨(b.south + b.north) / 2, (b.west + b.east) / 2⟩

/-- Leaflet `LatLngBounds.getNorthWest`. -/
def Bounds.getNorthWest (b : Bounds K) : LatLng K := ⟨b.north, b.west⟩

/-- Leaflet `LatLngBounds.getNorthEast`. -/
def Bounds.getNorthEast (b : Bounds K) : LatLng K := ⟨b.north, b.east⟩

/-- Leaflet `LatLngBounds.getSouthEast`. -/
def Bounds.getSouthEast (b : Bounds K) : LatLng K := ⟨b.south, b.east⟩

/-- Leaflet `LatLngBounds.getSouthWest`. -/
def Bounds.getSouthWest (b : Bounds K) : LatLng K := ⟨b.south, b.west⟩

/-- Width of a box in degrees, as computed in `updateImageBounds`
(src/app.js line 236): `Math.abs(bounds.getEast() - bounds.getWest())`. -/
def Bounds.width (b : Bounds K) : K := |b.east - b.west|

/-- Height of a box in degrees, as computed in `updateImageBounds`
(src/app.js line 237): `Math.abs(bounds.getNorth() - bounds.getSouth())`. -/
def Bounds.height (b : Bounds K) : K := |b.north - b.south|

/-- Corner positions in the fixed order used by `createDragHandles`
(src/app.js lines 165-170): north-west, north-east, south-east, south-west. -/
def handlesFor (b : Bounds K) : List (LatLng K) :=
  [b.getNorthWest, b.getNorthEast, b.getSouthEast, b.getSouthWest]

/-- The move operation `moveImageToPosition` (src/app.js lines 117-144),
restricted to its data content.  Inputs: the overlay's current bounds, the
previous pointer sample `moveStartPoint` and the new pointer position.
Returns the new overlay bounds (`imageOverlay.setBounds`), the new
center-marker position (`centerMarker.setLatLng(newBounds.getCenter())`),
and the updated `moveStartPoint` (set to `newPosition` at line 143). -/
def moveImageToPosition (currentBounds : Bounds K)
    (moveStartPoint newPosition : LatLng K) :
    Bounds K × LatLng K × LatLng K :=
  let deltaLat := newPosition.lat - moveStartPoint.lat
  let deltaLng := newPosition.lng - moveStartPoint.lng
  let newBounds := latLngBounds
    ⟨currentBounds.south + deltaLat, currentBounds.west + deltaLng⟩
    ⟨currentBounds.north + deltaLat, currentBounds.east + deltaLng⟩
  (newBounds, newBounds.getCenter, newPosition)

/-- Squared degree-space distance between two points: the expression under
`Math.sqrt` at src/app.js lines 242-245. -/
def distSq (p q : LatLng K) : K := (p.lat - q.lat) ^ 2 + (p.lng - q.lng) ^ 2

/-- Squared half-diagonal of a box: the expression under `Math.sqrt` at
src/app.js lines 246-249. -/
def halfDiagSq (b : Bounds K) : K := (b.height / 2) ^ 2 + (b.width / 2) ^ 2

/-- Characterization of `Math.sqrt`: `s` is the nonnegative square root of
`x`.  Over the reals every nonnegative `x` has such an `s`, so theorems
quantified over `isSqrtOf` witnesses cover every pointer position. -/
abbrev isSqrtOf (x s : K) : Prop := 0 ≤ s ∧ s ^ 2 = x

/-- The corner-drag resize `updateImageBounds` (src/app.js lines 226-279),
restricted to its data content: the new overlay bounds (which the source
then installs with `setBounds` and `createDragHandles`).  `distance` stands
for the value of `Math.sqrt(...)` at lines 242-245 (pointer-to-center
distance) and `currentDiagonal` for `Math.sqrt(...)` at lines 246-249
(current half-diagonal); claim theorems tie them to the pointer and to the
box via `isSqrtOf`.  The source computes `originalAspectRatio =
currentImage.naturalHeight / currentImage.naturalWidth` at line 233 but
never uses it afterwards: the new size only rescales the current width and
height by a common factor.  The dragged corner index only selects the
cursor shape; it does not enter the computation. -/
def updateImageBounds (currentBounds : Bounds K)
    (distance currentDiagonal : K) : Bounds K :=
  let center := currentBounds.getCenter
  let currentWidth := |currentBounds.east - currentBounds.west|
  let currentHeight := |currentBounds.north - currentBounds.south|
  let minDistance : K := 1 / 10000
  let clampedDistance := max distance minDistance
  let scaleFactor := clampedDistance / max currentDiagonal minDistance
  let minSize : K := 1 / 1000
  let newWidth := max (currentWidth * scaleFactor) minSize
  let newHeight := max (currentHeight * scaleFactor) minSize
  latLngBounds
    ⟨center.lat - newHeight / 2, center.lng - newWidth / 2⟩
    ⟨center.lat + newHeight / 2, center.lng + newWidth / 2⟩

end Geometry

/-- An image overlay layer as installed by
`L.imageOverlay(src, bounds, { opacity })` (src/app.js lines 394-396),
restricted to its data content. -/
structure Overlay (K : Type) where
  bounds : Bounds K
  opacity : K
  deriving DecidableEq

/-- The mutable display state of the page: the current overlay layer (the
`imageOverlay` variable, `none` when no overlay is shown), the corner
drag-handle positions (the `dragHandles` array), and the markers imported
so far. -/
structure AppState (K : Type) where
  overlay : Option (Overlay K)
  dragHandles : List (LatLng K)
  markers : List (LatLng K)
  deriving DecidableEq

section Display

variable {K : Type} [LinearOrderedField K]

/-- The opacity read-out `getDisplayOpacity` (src/app.js lines 350-355).
`parseInt(opacityInput.value, 10)` is modelled as an `Option ℤ` (`none`
for a NaN parse); a missing or out-of-range value falls back to `0.5`. -/
def getDisplayOpacity (opacityValue : Option ℤ) : K :=
  match opacityValue with
  | some v => if 0 ≤ v ∧ v ≤ 100 then (v : K) / 100 else 1/2
  | none => 1/2

/-- The geometry core of `updateImageDisplay` (src/app.js lines 372-392):
from the parsed scale input (`none` models a NaN parse; NaN or nonpositive
values fall back to `0.3`, line 373), the map pixel size, the anchor point
and the image's natural size, compute the overlay bounds.  `proj` and
`unproj` model the map's `latLngToLayerPoint` / `layerPointToLatLng` pair,
which are external Leaflet collaborators.  The result is `none` exactly
when the degenerate-image guard fires (`naturalWidth === 0 ||
naturalHeight === 0`, line 380); the source reads the scale input before
that guard, but both steps are pure so the order is immaterial here. -/
def computeDisplayBounds (proj : LatLng K → Pointxy K)
    (unproj : Pointxy K → LatLng K) (mapSize : Pointxy K)
    (mapCenterLatLng : LatLng K) (scaleRaw : Option K)
    (naturalWidth naturalHeight : K) : Option (Bounds K) :=
  if naturalWidth = 0 ∨ naturalHeight = 0 then none
  else
    let displayScale : K :=
      match scaleRaw with
      | some scale => if 0 < scale then scale else 3/10
      | none => 3/10
    let imageAspectRatio := naturalHeight / naturalWidth
    let displayWidthPx := mapSize.x * displayScale
    let displayHeightPx := displayWidthPx * imageAspectRatio
    let centerPoint := proj mapCenterLatLng
    let topLeftPoint : Pointxy K :=
      ⟨centerPoint.x - displayWidthPx / 2, centerPoint.y - displayHeightPx / 2⟩
    let bottomRightPoint : Pointxy K :=
      ⟨centerPoint.x + displayWidthPx / 2, centerPoint.y + displayHeightPx / 2⟩
    some (latLngBounds (unproj topLeftPoint) (unproj bottomRightPoint))

/-- The full `updateImageDisplay` handler (src/app.js lines 360-400) as a
state transition.  `imageReady` models `currentImage.src &&
currentImage.complete` (line 362).  Note that the source removes the
existing overlay and its drag handles (lines 366-370) BEFORE the
degenerate-size guard at line 380, so on a degenerate image it returns
with the previous overlay already torn down. -/
def updateImageDisplay (proj : LatLng K → Pointxy K)
    (unproj : Pointxy K → LatLng K) (mapSize : Pointxy K)
    (mapCenterLatLng : LatLng K) (scaleRaw : Option K)
    (opacityRaw : Option ℤ) (imageReady : Bool)
    (naturalWidth naturalHeight : K) (s : AppState K) : AppState K :=
  if imageReady then
    let s1 :=
      if s.overlay.isSome then { s with overlay := none, dragHandles := [] } else s
    match computeDisplayBounds proj unproj mapSize mapCenterLatLng scaleRaw
        naturalWidth naturalHeight with
    | none => s1
    | some bounds =>
        { s1 with overlay := some ⟨bounds, getDisplayOpacity opacityRaw⟩,
                  dragHandles := handlesFor bounds }
  else s

/-- The `currentImage.onload` handler (src/app.js lines 422-457): when the
decoded image has a zero natural dimension it shows a message box and
returns without touching the display state (line 424); otherwise it calls
`updateImageDisplay` (line 456), with the image now loaded and complete. -/
def currentImageOnload (proj : LatLng K → Pointxy K)
    (unproj : Pointxy K → LatLng K) (mapSize : Pointxy K)
    (mapCenterLatLng : LatLng K) (scaleRaw : Option K)
    (opacityRaw : Option ℤ) (naturalWidth naturalHeight : K)
    (s : AppState K) : AppState K :=
  if naturalWidth = 0 ∨ naturalHeight = 0 then s
  else updateImageDisplay proj unproj mapSize mapCenterLatLng scaleRaw
    opacityRaw true naturalWidth naturalHeight s

/-- The `updateOpacity` handler (src/app.js lines 405-408): when an
overlay is present, only its opacity is set
(`imageOverlay.setOpacity(getDisplayOpacity())`). -/
def updateOpacity (opacityRaw : Option ℤ) (s : AppState K) : AppState K :=
  match s.overlay with
  | none => s
  | some ov =>
      { s with overlay := some { ov with opacity := getDisplayOpacity opacityRaw } }

end Display

/-- A toy projection used to instantiate the abstract
`latLngToLayerPoint` collaborator in concrete instances: screen x is
longitude and screen y is negated latitude (y grows downward on screen).
It satisfies the inverse, monotonicity and separability properties assumed
of the real Web-Mercator pair. -/
def projEx : LatLng ℚ → Pointxy ℚ := fun p => ⟨p.lng, -p.lat⟩

/-- Inverse of `projEx`, instantiating `layerPointToLatLng`. -/
def unprojEx : Pointxy ℚ → LatLng ℚ := fun q => ⟨-q.y, q.x⟩

/-- Decimal value of a digit list (most significant digit first): the
reference meaning of a digit run, used to state what the parser returns. -/
def decValue (l : List Char) : ℕ :=
  l.foldl (fun acc c => 10 * acc + (c.toNat - '0'.toNat)) 0

/-- JavaScript `String.prototype.padEnd(targetLength, c)` (src/app.js line
675): right-pad to `targetLength` with `c`; a string that is already long
enough is returned unchanged. -/
def jsPadEnd (s : String) (targetLength : Nat) (c : Char) : String :=
  s ++ String.mk (List.replicate (targetLength - s.length) c)

/-- JavaScript `String.prototype.slice(a, b)` for `0 ≤ a ≤ b`. -/
def jsSlice (s : String) (a b : Nat) : String :=
  String.mk ((s.data.drop a).take (b - a))

/-- JavaScript `String.prototype.slice(a)` (from `a` to the end). -/
def jsSliceFrom (s : String) (a : Nat) : String :=
  String.mk (s.data.drop a)

/-- Longest leading digit run, as consumed by `parseInt`: `none` when the
first character is not a decimal digit. -/
def parseIntCore (l : List Char) : Option ℕ :=
  let ds := l.takeWhile Char.isDigit
  if ds.isEmpty then none else some (decValue ds)

/-- JavaScript `parseInt(s, 10)`, the external builtin used by
`dmsStrToDeg`: leading whitespace is skipped, an optional sign is
consumed, and the longest leading digit run is parsed; `none` models a NaN
result. -/
def jsParseInt (s : String) : Option ℤ :=
  let t := s.data.dropWhile Char.isWhitespace
  match t with
  | [] => none
  | ch :: rest =>
      if ch = '-' then (parseIntCore rest).map (fun n => -(n : ℤ))
      else if ch = '+' then (parseIntCore rest).map (fun n => (n : ℤ))
      else (parseIntCore (ch :: rest)).map (fun n => (n : ℤ))

/-- JavaScript `parseFloat('0.' ++ s)`, the external builtin used for the
fractional seconds: the value is `0.d1...dk` for the longest digit prefix
`d1...dk` of `s`, and it is never NaN since the literal starts with `0`.
Exponent suffixes are not modelled: the DMS inputs are digit strings. -/
def jsParseFloatFrac (s : String) : ℚ :=
  let ds := s.data.takeWhile Char.isDigit
  (decValue ds : ℚ) / 10 ^ ds.length

/-- Character-level success condition of `parseInt` on a string: after
leading whitespace and an optional sign, a decimal digit follows.  Used to
state when the DMS parser fails without mentioning the parser itself. -/
def hasLeadingInt (s : String) : Bool :=
  match s.data.dropWhile Char.isWhitespace with
  | [] => false
  | ch :: rest =>
      if ch = '-' ∨ ch = '+' then (rest.headD 'x').isDigit else ch.isDigit

/-- Exponent suffix of a JavaScript decimal literal (`e`/`E`, optional
sign, digits), or nothing. -/
def expPartOk : List Char → Bool
  | [] => true
  | ch :: rest =>
      if ch = 'e' ∨ ch = 'E' then
        let rest2 :=
          match rest with
          | c2 :: r2 => if c2 = '+' ∨ c2 = '-' then r2 else rest
          | [] => rest
        let ds := rest2.takeWhile Char.isDigit
        !ds.isEmpty && (rest2.drop ds.length).isEmpty
      else false

/-- Signed JavaScript decimal literal: optional sign, then digits with an
optional point and fraction (at least one digit on some side of the
point), then an optional exponent. -/
def decLiteralOk (l : List Char) : Bool :=
  let l2 :=
    match l with
    | ch :: rest => if ch = '+' ∨ ch = '-' then rest else l
    | [] => l
  let intPart := l2.takeWhile Char.isDigit
  let rest := l2.drop intPart.length
  match rest with
  | [] => !intPart.isEmpty
  | '.' :: r2 =>
      let frac := r2.takeWhile Char.isDigit
      let r3 := r2.drop frac.length
      (!intPart.isEmpty || !frac.isEmpty) && expPartOk r3
  | _ => !intPart.isEmpty && expPartOk rest

/-- JavaScript `Number(s)` coercibility in decimal notation, the reading
of "numeric-coercible": after trimming whitespace the string is empty
(`Number('')` is `0`, not NaN) or a signed decimal literal.  Hexadecimal,
octal, binary and `Infinity` forms are not modelled; the strings at issue
here are decimal. -/
def jsNumericCoercible (s : String) : Bool :=
  let t :=
    ((s.data.dropWhile Char.isWhitespace).reverse.dropWhile
      Char.isWhitespace).reverse
  match t with
  | [] => true
  | _ => decLiteralOk t

/-- The DMS-to-decimal-degrees parser `dmsStrToDeg` (src/app.js lines
670-698).  `none` models a NaN result: the empty input (the `!dmsStr`
falsy guard at line 671), or any of the three integer fields failing
`parseInt` (NaN propagates through the final sum).  The input cell is
modelled as a string; `dmsStr.toString()` is then the identity.  The
fractional seconds are `parseFloat('0.' + slice)`, which never yields NaN,
so they cannot cause failure. -/
def dmsStrToDeg (dmsStr : String) (isLongitude : Bool) : Option ℚ :=
  if dmsStr = "" then none
  else
    let targetLength := if isLongitude then 9 else 8
    let paddedStr := jsPadEnd dmsStr targetLength '0'
    if isLongitude then
      match jsParseInt (jsSlice paddedStr 0 3), jsParseInt (jsSlice paddedStr 3 5),
          jsParseInt (jsSlice paddedStr 5 7) with
      | some deg, some minutes, some secInt =>
          let secDecimal := jsParseFloatFrac (jsSliceFrom paddedStr 7)
          let sec := (secInt : ℚ) + secDecimal
          some ((deg : ℚ) + (minutes : ℚ) / 60 + sec / 3600)
      | _, _, _ => none
    else
      match jsParseInt (jsSlice paddedStr 0 2), jsParseInt (jsSlice paddedStr 2 4),
          jsParseInt (jsSlice paddedStr 4 6) with
      | some deg, some minutes, some secInt =>
          let secDecimal := jsParseFloatFrac (jsSliceFrom paddedStr 6)
          let sec := (secInt : ℚ) + secDecimal
          some ((deg : ℚ) + (minutes : ℚ) / 60 + sec / 3600)
      | _, _, _ => none

/-- One data row of the GPS import loop (src/app.js lines 713-731),
restricted to the marker it creates (`none` when the row is skipped).
Cells are modelled as strings (worksheet values pass through `toString()`
before parsing) and a missing cell reads as the empty string, matching the
falsy `(row[i] || '')` and `!dmsStr` checks in the source; the `!row` null
check at line 715 is unrepresentable because rows are lists here.  The
source tests `!name.trim() || isNaN(lat) || isNaN(lng)` and then
`lat <= 0 || lng <= 0`; the NaN tests are the `none` cases of the match. -/
def gpsRowMarker (row : List String) : Option (String × ℚ × ℚ) :=
  if row.length < 5 then none
  else
    let name := (row.getD 2 "") ++ " " ++ (row.getD 6 "")
    match dmsStrToDeg (row.getD 3 "") false, dmsStrToDeg (row.getD 4 "") true with
    | some lat, some lng =>
        if name.trim = "" then none
        else if lat ≤ 0 ∨ lng ≤ 0 then none
        else some (name, lat, lng)
    | _, _ => none

/-- The GPS import loop (src/app.js lines 711-732): row 0 is the header
and is skipped (`for i = 1`); every other row either creates one marker
(name, latitude, longitude) and increments `markerCount`, or is skipped.
Returns the created markers in order together with the final count. -/
def gpsImport (jsonData : List (List String)) : List (String × ℚ × ℚ) × ℕ :=
  (jsonData.drop 1).foldl
    (fun acc row =>
      match gpsRowMarker row with
      | some m => (acc.1 ++ [m], acc.2 + 1)
      | none => acc)
    ([], 0)

/-- The row-acceptance policy exactly as the specification states it: the
joined label is non-empty after trimming, both coordinates parse to finite
numbers, and both are strictly positive. -/
def rowAccepted (row : List String) : Bool :=
  decide (((row.getD 2 "") ++ " " ++ (row.getD 6 "")).trim ≠ "") &&
    (match dmsStrToDeg (row.getD 3 "") false, dmsStrToDeg (row.getD 4 "") true with
     | some lat, some lng => decide (0 < lat) && decide (0 < lng)
     | _, _ => false)

/-- The marker an accepted row creates: joined label and the two parsed
coordinates. -/
def rowMarker (row : List String) : String × ℚ × ℚ :=
  ((row.getD 2 "") ++ " " ++ (row.getD 6 ""),
    (dmsStrToDeg (row.getD 3 "") false).getD 0,
    (dmsStrToDeg (row.getD 4 "") true).getD 0)

section ResizeLemmas

variable {K : Type} [LinearOrderedField K]

/-- Unfolding lemma: the resized box written out by fields.  The `min`/`max`
normalization of `latLngBounds` collapses because the clamped sizes are
positive. -/
theorem updateImageBounds_fields (b : Bounds K) (dist diag : K) :
    updateImageBounds b dist diag =
      ⟨b.getCenter.lat
          - max (b.height * (max dist ((1:K)/10000) / max diag ((1:K)/10000)))
              ((1:K)/1000) / 2,
        b.getCenter.lng
          - max (b.width * (max dist ((1:K)/10000) / max diag ((1:K)/10000)))
              ((1:K)/1000) / 2,
        b.getCenter.lat
          + max (b.height * (max dist ((1:K)/10000) / max diag ((1:K)/10000)))
              ((1:K)/1000) / 2,
        b.getCenter.lng
          + max (b.width * (max dist ((1:K)/10000) / max diag ((1:K)/10000)))
              ((1:K)/1000) / 2⟩ := by
  have hH0 : (0:K)
      < max (|b.north - b.south| * (max dist ((1:K)/10000) / max diag ((1:K)/10000)))
          ((1:K)/1000) :=
    lt_of_lt_of_le (by norm_num) (le_max_right _ _)
  have hW0 : (0:K)
      < max (|b.east - b.west| * (max dist ((1:K)/10000) / max diag ((1:K)/10000)))
          ((1:K)/1000) :=
    lt_of_lt_of_le (by norm_num) (le_max_right _ _)
  simp only [updateImageBounds, latLngBounds, Bounds.getCenter, Bounds.width,
    Bounds.height, Bounds.mk.injEq]
  refine ⟨min_eq_left (by linarith), min_eq_left (by linarith),
    max_eq_right (by linarith), max_eq_right (by linarith)⟩

/-- Unfolding lemma: width of the resized box. -/
theorem updateImageBounds_width (b : Bounds K) (dist diag : K) :
    (updateImageBounds b dist diag).width
      = max (b.width * (max dist ((1:K)/10000) / max diag ((1:K)/10000)))
          ((1:K)/1000) := by
  have habs : ∀ c h : K, 0 < h → |c + h / 2 - (c - h / 2)| = h := by
    intro c h h0
    rw [show c + h / 2 - (c - h / 2) = h by ring]
    exact abs_of_pos h0
  rw [updateImageBounds_fields]
  exact habs _ _ (lt_of_lt_of_le (by norm_num) (le_max_right _ _))

/-- Unfolding lemma: height of the resized box. -/
theorem updateImageBounds_height (b : Bounds K) (dist diag : K) :
    (updateImageBounds b dist diag).height
      = max (b.height * (max dist ((1:K)/10000) / max diag ((1:K)/10000)))
          ((1:K)/1000) := by
  have habs : ∀ c h : K, 0 < h → |c + h / 2 - (c - h / 2)| = h := by
    intro c h h0
    rw [show c + h / 2 - (c - h / 2) = h by ring]
    exact abs_of_pos h0
  rw [updateImageBounds_fields]
  exact habs _ _ (lt_of_lt_of_le (by norm_num) (le_max_right _ _))

/-- Unfolding lemma: the resized box keeps the input box's center. -/
theorem updateImageBounds_center (b : Bounds K) (dist diag : K) :
    (updateImageBounds b dist diag).getCenter = b.getCenter := by
  rw [updateImageBounds_fields]
  simp only [Bounds.getCenter, LatLng.mk.injEq]
  constructor <;> ring

end ResizeLemmas


section MoveClaims

variable {K : Type} [LinearOrderedField K]

/-- C3: `moveImageToPosition` is a pure translation.  Each of the four
edges of the bounding box moves by exactly the respective component of the
pointer delta `(newPos - moveStart)`, the width and height of the box are
unchanged, the center marker moves by exactly the same delta, and the drag
state's `moveStartPoint` is updated to the current pointer position, so the
next sample's delta is taken from the previous sample, not the drag origin. -/
theorem moveImageToPosition_translation (b : Bounds K)
    (moveStart newPos : LatLng K)
    (hSN : b.south ≤ b.north) (hWE : b.west ≤ b.east) :
    (moveImageToPosition b moveStart newPos).1.north
        = b.north + (newPos.lat - moveStart.lat) ∧
    (moveImageToPosition b moveStart newPos).1.south
        = b.south + (newPos.lat - moveStart.lat) ∧
    (moveImageToPosition b moveStart newPos).1.east
        = b.east + (newPos.lng - moveStart.lng) ∧
    (moveImageToPosition b moveStart newPos).1.west
        = b.west + (newPos.lng - moveStart.lng) ∧
    (moveImageToPosition b moveStart newPos).1.width = b.width ∧
    (moveImageToPosition b moveStart newPos).1.height = b.height ∧
    (moveImageToPosition b moveStart newPos).2.1.lat
        = b.getCenter.lat + (newPos.lat - moveStart.lat) ∧
    (moveImageToPosition b moveStart newPos).2.1.lng
        = b.getCenter.lng + (newPos.lng - moveStart.lng) ∧
    (moveImageToPosition b moveStart newPos).2.2 = newPos := by
  have h1 : b.south + (newPos.lat - moveStart.lat)
      ≤ b.north + (newPos.lat - moveStart.lat) := by linarith
  have h2 : b.west + (newPos.lng - moveStart.lng)
      ≤ b.east + (newPos.lng - moveStart.lng) := by linarith
  refine ⟨?_, ?_, ?_, ?_, ?_, ?_, ?_, ?_, ?_⟩ <;>
    simp [moveImageToPosition, latLngBounds, Bounds.width, Bounds.height,
      Bounds.getCenter, max_eq_right h1, min_eq_left h1,
      max_eq_right h2, min_eq_left h2] <;>
    ring

/-- Concrete instance of `moveImageToPosition_translation` at a sample box
and pointer pair over the rationals. -/
theorem moveImageToPosition_translation_wit :
    ((0 : ℚ) ≤ 1 ∧ (0 : ℚ) ≤ 2) ∧
    ((moveImageToPosition (⟨0, 0, 1, 2⟩ : Bounds ℚ) ⟨5, 5⟩ ⟨6, 8⟩).1.north
        = 1 + (6 - 5) ∧
      (moveImageToPosition (⟨0, 0, 1, 2⟩ : Bounds ℚ) ⟨5, 5⟩ ⟨6, 8⟩).1.south
        = 0 + (6 - 5) ∧
      (moveImageToPosition (⟨0, 0, 1, 2⟩ : Bounds ℚ) ⟨5, 5⟩ ⟨6, 8⟩).1.east
        = 2 + (8 - 5) ∧
      (moveImageToPosition (⟨0, 0, 1, 2⟩ : Bounds ℚ) ⟨5, 5⟩ ⟨6, 8⟩).1.west
        = 0 + (8 - 5) ∧
      (moveImageToPosition (⟨0, 0, 1, 2⟩ : Bounds ℚ) ⟨5, 5⟩ ⟨6, 8⟩).1.width
        = Bounds.width ⟨0, 0, 1, 2⟩ ∧
      (moveImageToPosition (⟨0, 0, 1, 2⟩ : Bounds ℚ) ⟨5, 5⟩ ⟨6, 8⟩).1.height
        = Bounds.height ⟨0, 0, 1, 2⟩ ∧
      (moveImageToPosition (⟨0, 0, 1, 2⟩ : Bounds ℚ) ⟨5, 5⟩ ⟨6, 8⟩).2.1.lat
        = (Bounds.getCenter ⟨0, 0, 1, 2⟩).lat + (6 - 5) ∧
      (moveImageToPosition (⟨0, 0, 1, 2⟩ : Bounds ℚ) ⟨5, 5⟩ ⟨6, 8⟩).2.1.lng
        = (Bounds.getCenter ⟨0, 0, 1, 2⟩).lng + (8 - 5) ∧
      (moveImageToPosition (⟨0, 0, 1, 2⟩ : Bounds ℚ) ⟨5, 5⟩ ⟨6, 8⟩).2.2
        = ⟨6, 8⟩) :=
  ⟨⟨by norm_num, by norm_num⟩,
    moveImageToPosition_translation ⟨0, 0, 1, 2⟩ ⟨5, 5⟩ ⟨6, 8⟩
      (by norm_num) (by norm_num)⟩

end MoveClaims

section ResizeClaims

variable {K : Type} [LinearOrderedField K]

/-- C10: the implemented resize policy is center-anchored.  For every
corner drag applied by `updateImageBounds`, the center of the resulting box
equals the center of the input box (the opposite corner is not held
fixed), and the new width and height are the current width and height
scaled by `max(distance(center, pointer), 0.0001) /
max(currentHalfDiagonal, 0.0001)`, each then clamped below by `0.001`
degree. -/
theorem updateImageBounds_center_anchored (b : Bounds K) (p : LatLng K)
    (dist diag : K)
    (hdist : isSqrtOf (distSq p b.getCenter) dist)
    (hdiag : isSqrtOf (halfDiagSq b) diag) :
    (updateImageBounds b dist diag).getCenter = b.getCenter ∧
    (updateImageBounds b dist diag).width
      = max (b.width * (max dist ((1:K)/10000) / max diag ((1:K)/10000)))
          ((1:K)/1000) ∧
    (updateImageBounds b dist diag).height
      = max (b.height * (max dist ((1:K)/10000) / max diag ((1:K)/10000)))
          ((1:K)/1000) :=
  ⟨updateImageBounds_center b dist diag, updateImageBounds_width b dist diag,
    updateImageBounds_height b dist diag⟩

/-- Concrete instance of `updateImageBounds_center_anchored`: a 6-by-8
degree box around the origin and a pointer at distance 10 from the center
(half-diagonal 5), over the rationals. -/
theorem updateImageBounds_center_anchored_wit :
    isSqrtOf (distSq (⟨-8, -6⟩ : LatLng ℚ) (Bounds.getCenter ⟨-4, -3, 4, 3⟩)) 10 ∧
    isSqrtOf (halfDiagSq (⟨-4, -3, 4, 3⟩ : Bounds ℚ)) 5 ∧
    ((updateImageBounds (⟨-4, -3, 4, 3⟩ : Bounds ℚ) 10 5).getCenter
        = Bounds.getCenter ⟨-4, -3, 4, 3⟩ ∧
      (updateImageBounds (⟨-4, -3, 4, 3⟩ : Bounds ℚ) 10 5).width
        = max (Bounds.width ⟨-4, -3, 4, 3⟩ * (max 10 ((1:ℚ)/10000) / max 5 ((1:ℚ)/10000)))
            ((1:ℚ)/1000) ∧
      (updateImageBounds (⟨-4, -3, 4, 3⟩ : Bounds ℚ) 10 5).height
        = max (Bounds.height ⟨-4, -3, 4, 3⟩ * (max 10 ((1:ℚ)/10000) / max 5 ((1:ℚ)/10000)))
            ((1:ℚ)/1000)) :=
  ⟨by norm_num [isSqrtOf, distSq, Bounds.getCenter],
    by norm_num [isSqrtOf, halfDiagSq, Bounds.height, Bounds.width],
    updateImageBounds_center_anchored _ ⟨-8, -6⟩ _ _
      (by norm_num [isSqrtOf, distSq, Bounds.getCenter])
      (by norm_num [isSqrtOf, halfDiagSq, Bounds.height, Bounds.width])⟩

/-- C1 refuted at a concrete input.  Image of natural size 100 by 200
pixels, so `originalAspectRatio = naturalHeight / naturalWidth = 200/100`;
the overlay's current box is the non-degenerate 6-wide, 8-tall box around
the origin (degree height/width ratio 4/3, which reachable states do have:
the Mercator round trip of `updateImageDisplay` compresses latitude extent
relative to longitude extent).  A corner drag sample at `(8, 6)` (distance
10 from the center, half-diagonal 5) doubles the box, and the resulting
ratio is 4/3, not `200/100`: `updateImageBounds` rescales the current
degree sizes proportionally and never consults the image's aspect ratio. -/
theorem updateImageBounds_ratio_cex :
    isSqrtOf (distSq (⟨8, 6⟩ : LatLng ℚ) (Bounds.getCenter ⟨-4, -3, 4, 3⟩)) 10 ∧
    isSqrtOf (halfDiagSq (⟨-4, -3, 4, 3⟩ : Bounds ℚ)) 5 ∧
    ((⟨-4, -3, 4, 3⟩ : Bounds ℚ).south < (⟨-4, -3, 4, 3⟩ : Bounds ℚ).north) ∧
    ((⟨-4, -3, 4, 3⟩ : Bounds ℚ).west < (⟨-4, -3, 4, 3⟩ : Bounds ℚ).east) ∧
    (updateImageBounds (⟨-4, -3, 4, 3⟩ : Bounds ℚ) 10 5).height
        / (updateImageBounds (⟨-4, -3, 4, 3⟩ : Bounds ℚ) 10 5).width
      ≠ (200 : ℚ) / 100 := by
  refine ⟨?_, ?_, ?_, ?_, ?_⟩ <;>
    norm_num [isSqrtOf, distSq, halfDiagSq, handlesFor, updateImageBounds,
      latLngBounds, Bounds.getCenter, Bounds.getNorthWest, Bounds.getNorthEast,
      Bounds.getSouthEast, Bounds.getSouthWest, Bounds.width, Bounds.height,
      Bounds.mk.injEq, LatLng.mk.injEq, max_def, min_def, abs_of_pos]

/-- C1 amended: for every intermediate drag sample, `updateImageBounds`
preserves the CURRENT box's degree height/width ratio (not the image's
`originalAspectRatio`, which the source computes but never uses), provided
neither rescaled dimension is clamped by the `0.001` minimum-size floor. -/
theorem updateImageBounds_current_ratio (b : Bounds K) (p : LatLng K)
    (dist diag : K)
    (hdist : isSqrtOf (distSq p b.getCenter) dist)
    (hdiag : isSqrtOf (halfDiagSq b) diag)
    (hwfloor : (1:K)/1000
      ≤ b.width * (max dist ((1:K)/10000) / max diag ((1:K)/10000)))
    (hhfloor : (1:K)/1000
      ≤ b.height * (max dist ((1:K)/10000) / max diag ((1:K)/10000)))
    (hw0 : b.width ≠ 0) :
    (updateImageBounds b dist diag).height / (updateImageBounds b dist diag).width
      = b.height / b.width := by
  have hs0 : (0:K) < max dist ((1:K)/10000) / max diag ((1:K)/10000) :=
    div_pos (lt_of_lt_of_le (by norm_num) (le_max_right _ _))
      (lt_of_lt_of_le (by norm_num) (le_max_right _ _))
  have hsne : max dist ((1:K)/10000) / max diag ((1:K)/10000) ≠ 0 := ne_of_gt hs0
  rw [updateImageBounds_width, updateImageBounds_height, max_eq_left hwfloor,
    max_eq_left hhfloor]
  field_simp
  ring

/-- Concrete instance of `updateImageBounds_current_ratio` over the
rationals (same drag sample as the counterexample: the preserved quantity
is the current ratio 4/3). -/
theorem updateImageBounds_current_ratio_wit :
    isSqrtOf (distSq (⟨8, 6⟩ : LatLng ℚ) (Bounds.getCenter ⟨-4, -3, 4, 3⟩)) 10 ∧
    isSqrtOf (halfDiagSq (⟨-4, -3, 4, 3⟩ : Bounds ℚ)) 5 ∧
    (1:ℚ)/1000
      ≤ Bounds.width ⟨-4, -3, 4, 3⟩ * (max 10 ((1:ℚ)/10000) / max 5 ((1:ℚ)/10000)) ∧
    (1:ℚ)/1000
      ≤ Bounds.height ⟨-4, -3, 4, 3⟩ * (max 10 ((1:ℚ)/10000) / max 5 ((1:ℚ)/10000)) ∧
    Bounds.width (⟨-4, -3, 4, 3⟩ : Bounds ℚ) ≠ 0 ∧
    (updateImageBounds (⟨-4, -3, 4, 3⟩ : Bounds ℚ) 10 5).height
        / (updateImageBounds (⟨-4, -3, 4, 3⟩ : Bounds ℚ) 10 5).width
      = Bounds.height (⟨-4, -3, 4, 3⟩ : Bounds ℚ) / Bounds.width ⟨-4, -3, 4, 3⟩ :=
  ⟨by norm_num [isSqrtOf, distSq, Bounds.getCenter],
    by norm_num [isSqrtOf, halfDiagSq, Bounds.height, Bounds.width],
    by norm_num [Bounds.width],
    by norm_num [Bounds.height],
    by norm_num [Bounds.width],
    updateImageBounds_current_ratio _ ⟨8, 6⟩ _ _
      (by norm_num [isSqrtOf, distSq, Bounds.getCenter])
      (by norm_num [isSqrtOf, halfDiagSq, Bounds.height, Bounds.width])
      (by norm_num [Bounds.width]) (by norm_num [Bounds.height])
      (by norm_num [Bounds.width])⟩

/-- C5 refuted at a concrete input.  The box from `(-0.0004, -0.0003)` to
`(0.0004, 0.0003)` is non-degenerate (south < north, west < east), and the
pointer sits exactly on the north-east corner (distance = half-diagonal =
0.0005), so the drag has zero delta; yet both dimensions are below the
0.001 minimum-size floor, so `updateImageBounds` inflates the box to
0.001-by-0.001 instead of returning it unchanged. -/
theorem updateImageBounds_zero_delta_cex :
    (Bounds.getNorthEast (⟨-(1:ℚ)/2500, -(3:ℚ)/10000, 1/2500, 3/10000⟩ : Bounds ℚ)
        = ⟨1/2500, 3/10000⟩) ∧
    isSqrtOf (distSq (⟨1/2500, 3/10000⟩ : LatLng ℚ)
        (Bounds.getCenter ⟨-(1:ℚ)/2500, -(3:ℚ)/10000, 1/2500, 3/10000⟩)) (1/2000) ∧
    isSqrtOf (halfDiagSq (⟨-(1:ℚ)/2500, -(3:ℚ)/10000, 1/2500, 3/10000⟩ : Bounds ℚ))
        (1/2000) ∧
    (-(1:ℚ)/2500 < 1/2500) ∧ (-(3:ℚ)/10000 < 3/10000) ∧
    updateImageBounds (⟨-(1:ℚ)/2500, -(3:ℚ)/10000, 1/2500, 3/10000⟩ : Bounds ℚ)
        (1/2000) (1/2000)
      ≠ ⟨-(1:ℚ)/2500, -(3:ℚ)/10000, 1/2500, 3/10000⟩ := by
  refine ⟨?_, ?_, ?_, ?_, ?_, ?_⟩ <;>
    norm_num [isSqrtOf, distSq, halfDiagSq, handlesFor, updateImageBounds,
      latLngBounds, Bounds.getCenter, Bounds.getNorthWest, Bounds.getNorthEast,
      Bounds.getSouthEast, Bounds.getSouthWest, Bounds.width, Bounds.height,
      Bounds.mk.injEq, LatLng.mk.injEq, max_def, min_def, abs_of_pos]

/-- C5 amended: zero-delta resize is the identity for every box whose
width and height are at least the `0.001` minimum-size floor (in exact
arithmetic: dragging any corner to its own current position returns the
same bounding box).  Boxes below the floor are inflated instead, as the
counterexample shows. -/
theorem updateImageBounds_zero_delta (b : Bounds K) (p : LatLng K)
    (dist diag : K)
    (hp : p ∈ handlesFor b)
    (hdist : isSqrtOf (distSq p b.getCenter) dist)
    (hdiag : isSqrtOf (halfDiagSq b) diag)
    (hSN : b.south ≤ b.north) (hWE : b.west ≤ b.east)
    (hh : (1:K)/1000 ≤ b.height) (hw : (1:K)/1000 ≤ b.width) :
    updateImageBounds b dist diag = b := by
  have habsH : |b.north - b.south| = b.north - b.south :=
    abs_of_nonneg (by linarith)
  have habsW : |b.east - b.west| = b.east - b.west :=
    abs_of_nonneg (by linarith)
  have key : distSq p b.getCenter = halfDiagSq b := by
    simp only [handlesFor, List.mem_cons, List.mem_singleton,
      List.not_mem_nil, or_false] at hp
    rcases hp with hp | hp | hp | hp <;> subst hp <;>
      simp only [distSq, halfDiagSq, Bounds.getCenter, Bounds.getNorthWest,
        Bounds.getNorthEast, Bounds.getSouthEast, Bounds.getSouthWest,
        Bounds.height, Bounds.width, habsH, habsW] <;> ring
  have hdd : dist = diag := by
    have h1 : dist ^ 2 = diag ^ 2 := by rw [hdist.2, hdiag.2, key]
    have h2 : (dist - diag) * (dist + diag) = 0 := by linear_combination h1
    rcases mul_eq_zero.mp h2 with h | h
    · linarith
    · linarith [hdist.1, hdiag.1]
  have hsf : max diag ((1:K)/10000) / max diag ((1:K)/10000) = 1 :=
    div_self (ne_of_gt (lt_of_lt_of_le (by norm_num) (le_max_right _ _)))
  rcases b with ⟨bs, bw, bn, be⟩
  rw [updateImageBounds_fields, hdd, hsf, mul_one, mul_one,
    max_eq_left hh, max_eq_left hw]
  simp only [Bounds.getCenter, Bounds.height, Bounds.width, habsH, habsW,
    Bounds.mk.injEq]
  refine ⟨by ring, by ring, by ring, by ring⟩

/-- Concrete instance of `updateImageBounds_zero_delta`: dragging the
north-east corner of the 6-by-8 degree box to its own position leaves the
box unchanged. -/
theorem updateImageBounds_zero_delta_wit :
    (⟨4, 3⟩ : LatLng ℚ) ∈ handlesFor (⟨-4, -3, 4, 3⟩ : Bounds ℚ) ∧
    isSqrtOf (distSq (⟨4, 3⟩ : LatLng ℚ) (Bounds.getCenter ⟨-4, -3, 4, 3⟩)) 5 ∧
    isSqrtOf (halfDiagSq (⟨-4, -3, 4, 3⟩ : Bounds ℚ)) 5 ∧
    ((⟨-4, -3, 4, 3⟩ : Bounds ℚ).south ≤ (⟨-4, -3, 4, 3⟩ : Bounds ℚ).north) ∧
    ((⟨-4, -3, 4, 3⟩ : Bounds ℚ).west ≤ (⟨-4, -3, 4, 3⟩ : Bounds ℚ).east) ∧
    (1:ℚ)/1000 ≤ Bounds.height ⟨-4, -3, 4, 3⟩ ∧
    (1:ℚ)/1000 ≤ Bounds.width ⟨-4, -3, 4, 3⟩ ∧
    updateImageBounds (⟨-4, -3, 4, 3⟩ : Bounds ℚ) 5 5 = ⟨-4, -3, 4, 3⟩ :=
  ⟨by norm_num [handlesFor, Bounds.getNorthWest, Bounds.getNorthEast,
      Bounds.getSouthEast, Bounds.getSouthWest, LatLng.mk.injEq],
    by norm_num [isSqrtOf, distSq, Bounds.getCenter],
    by norm_num [isSqrtOf, halfDiagSq, Bounds.height, Bounds.width],
    by norm_num, by norm_num,
    by norm_num [Bounds.height], by norm_num [Bounds.width],
    updateImageBounds_zero_delta _ ⟨4, 3⟩ _ _
      (by norm_num [handlesFor, Bounds.getNorthWest, Bounds.getNorthEast,
        Bounds.getSouthEast, Bounds.getSouthWest, LatLng.mk.injEq])
      (by norm_num [isSqrtOf, distSq, Bounds.getCenter])
      (by norm_num [isSqrtOf, halfDiagSq, Bounds.height, Bounds.width])
      (by norm_num) (by norm_num)
      (by norm_num [Bounds.height]) (by norm_num [Bounds.width])⟩

end ResizeClaims

section DisplayClaims

variable {K : Type} [LinearOrderedField K]

/-- Helper: corner getters of a normalized two-corner box, when the first
corner is north-west of the second. -/
theorem latLngBounds_corners (A B : LatLng K)
    (h1 : A.lng ≤ B.lng) (h2 : B.lat ≤ A.lat) :
    (latLngBounds A B).getNorthWest = A ∧
    (latLngBounds A B).getNorthEast = ⟨A.lat, B.lng⟩ ∧
    (latLngBounds A B).getSouthWest = ⟨B.lat, A.lng⟩ ∧
    (latLngBounds A B).getSouthEast = B := by
  refine ⟨?_, ?_, ?_, ?_⟩ <;>
    simp [latLngBounds, Bounds.getNorthWest, Bounds.getNorthEast,
      Bounds.getSouthWest, Bounds.getSouthEast,
      max_eq_left h2, min_eq_right h2, min_eq_left h1, max_eq_right h1]

/-- Helper: projections of the relevant corners of the box built from two
unprojected pixel points, under the assumptions satisfied by the map
projection pair (round trip, monotonicity, separability). -/
theorem corners_proj (proj : LatLng K → Pointxy K)
    (unproj : Pointxy K → LatLng K)
    (hinv : ∀ q, proj (unproj q) = q)
    (hlng : ∀ p q : Pointxy K, p.x ≤ q.x → (unproj p).lng ≤ (unproj q).lng)
    (hlat : ∀ p q : Pointxy K, p.y ≤ q.y → (unproj q).lat ≤ (unproj p).lat)
    (hsepx : ∀ p q : LatLng K, p.lng = q.lng → (proj p).x = (proj q).x)
    (hsepy : ∀ p q : LatLng K, p.lat = q.lat → (proj p).y = (proj q).y)
    (p q : Pointxy K) (hpx : p.x ≤ q.x) (hpy : p.y ≤ q.y) :
    proj (latLngBounds (unproj p) (unproj q)).getNorthWest = p ∧
    (proj (latLngBounds (unproj p) (unproj q)).getNorthEast).x = q.x ∧
    (proj (latLngBounds (unproj p) (unproj q)).getSouthWest).y = q.y := by
  obtain ⟨hNW, hNE, hSW, _⟩ :=
    latLngBounds_corners (unproj p) (unproj q) (hlng p q hpx) (hlat p q hpy)
  refine ⟨?_, ?_, ?_⟩
  · rw [hNW, hinv]
  · rw [hNE, hsepx ⟨(unproj p).lat, (unproj q).lng⟩ (unproj q) rfl, hinv]
  · rw [hSW, hsepy ⟨(unproj q).lat, (unproj p).lng⟩ (unproj q) rfl, hinv]

/-- C2: for every `scale > 0`, viewport size with nonnegative pixel width,
and image aspect ratio `naturalHeight / naturalWidth > 0`, the initial
bounding box computed by `updateImageDisplay` (its geometry core
`computeDisplayBounds`) projects back, through the same
`latLngToLayerPoint` / `layerPointToLatLng` pair, to a pixel rectangle of
width exactly `mapSize.x * scale` and of height/width ratio exactly the
image aspect ratio (the model is exact, so the projection rounding
tolerance of the claim is not needed).  The projection pair is abstract,
assumed to satisfy the round-trip, monotonicity and separability
properties of Leaflet's Web-Mercator conversion. -/
theorem computeDisplayBounds_size (proj : LatLng K → Pointxy K)
    (unproj : Pointxy K → LatLng K) (mapSize : Pointxy K) (c : LatLng K)
    (scale naturalWidth naturalHeight : K)
    (hinv : ∀ q, proj (unproj q) = q)
    (hlng : ∀ p q : Pointxy K, p.x ≤ q.x → (unproj p).lng ≤ (unproj q).lng)
    (hlat : ∀ p q : Pointxy K, p.y ≤ q.y → (unproj q).lat ≤ (unproj p).lat)
    (hsepx : ∀ p q : LatLng K, p.lng = q.lng → (proj p).x = (proj q).x)
    (hsepy : ∀ p q : LatLng K, p.lat = q.lat → (proj p).y = (proj q).y)
    (hscale : 0 < scale) (hW : 0 < naturalWidth) (hH : 0 < naturalHeight)
    (hmx : 0 ≤ mapSize.x) :
    ∃ b : Bounds K,
      computeDisplayBounds proj unproj mapSize c (some scale)
          naturalWidth naturalHeight = some b ∧
      (proj b.getNorthEast).x - (proj b.getNorthWest).x = mapSize.x * scale ∧
      (proj b.getSouthWest).y - (proj b.getNorthWest).y
        = mapSize.x * scale * (naturalHeight / naturalWidth) ∧
      (0 < mapSize.x →
        ((proj b.getSouthWest).y - (proj b.getNorthWest).y)
            / ((proj b.getNorthEast).x - (proj b.getNorthWest).x)
          = naturalHeight / naturalWidth) := by
  have hr : 0 < naturalHeight / naturalWidth := div_pos hH hW
  have hwpx : 0 ≤ mapSize.x * scale := mul_nonneg hmx hscale.le
  have hhpx : 0 ≤ mapSize.x * scale * (naturalHeight / naturalWidth) :=
    mul_nonneg hwpx hr.le
  have hb : computeDisplayBounds proj unproj mapSize c (some scale)
      naturalWidth naturalHeight
      = some (latLngBounds
          (unproj ⟨(proj c).x - mapSize.x * scale / 2,
            (proj c).y - mapSize.x * scale * (naturalHeight / naturalWidth) / 2⟩)
          (unproj ⟨(proj c).x + mapSize.x * scale / 2,
            (proj c).y + mapSize.x * scale * (naturalHeight / naturalWidth) / 2⟩)) := by
    simp [computeDisplayBounds, hW.ne', hH.ne', hscale]
  obtain ⟨hNW, hNEx, hSWy⟩ := corners_proj proj unproj hinv hlng hlat hsepx hsepy
    ⟨(proj c).x - mapSize.x * scale / 2,
      (proj c).y - mapSize.x * scale * (naturalHeight / naturalWidth) / 2⟩
    ⟨(proj c).x + mapSize.x * scale / 2,
      (proj c).y + mapSize.x * scale * (naturalHeight / naturalWidth) / 2⟩
    (by show (proj c).x - mapSize.x * scale / 2 ≤ (proj c).x + mapSize.x * scale / 2
        linarith)
    (by show (proj c).y - mapSize.x * scale * (naturalHeight / naturalWidth) / 2
          ≤ (proj c).y + mapSize.x * scale * (naturalHeight / naturalWidth) / 2
        linarith)
  have hx : (proj (latLngBounds
        (unproj ⟨(proj c).x - mapSize.x * scale / 2,
          (proj c).y - mapSize.x * scale * (naturalHeight / naturalWidth) / 2⟩)
        (unproj ⟨(proj c).x + mapSize.x * scale / 2,
          (proj c).y + mapSize.x * scale * (naturalHeight / naturalWidth) / 2⟩)).getNorthEast).x
      - (proj (latLngBounds
        (unproj ⟨(proj c).x - mapSize.x * scale / 2,
          (proj c).y - mapSize.x * scale * (naturalHeight / naturalWidth) / 2⟩)
        (unproj ⟨(proj c).x + mapSize.x * scale / 2,
          (proj c).y + mapSize.x * scale * (naturalHeight / naturalWidth) / 2⟩)).getNorthWest).x
      = mapSize.x * scale := by
    rw [hNEx, hNW]
    show (proj c).x + mapSize.x * scale / 2
        - ((proj c).x - mapSize.x * scale / 2) = mapSize.x * scale
    ring
  have hy : (proj (latLngBounds
        (unproj ⟨(proj c).x - mapSize.x * scale / 2,
          (proj c).y - mapSize.x * scale * (naturalHeight / naturalWidth) / 2⟩)
        (unproj ⟨(proj c).x + mapSize.x * scale / 2,
          (proj c).y + mapSize.x * scale * (naturalHeight / naturalWidth) / 2⟩)).getSouthWest).y
      - (proj (latLngBounds
        (unproj ⟨(proj c).x - mapSize.x * scale / 2,
          (proj c).y - mapSize.x * scale * (naturalHeight / naturalWidth) / 2⟩)
        (unproj ⟨(proj c).x + mapSize.x * scale / 2,
          (proj c).y + mapSize.x * scale * (naturalHeight / naturalWidth) / 2⟩)).getNorthWest).y
      = mapSize.x * scale * (naturalHeight / naturalWidth) := by
    rw [hSWy, hNW]
    show (proj c).y + mapSize.x * scale * (naturalHeight / naturalWidth) / 2
        - ((proj c).y - mapSize.x * scale * (naturalHeight / naturalWidth) / 2)
      = mapSize.x * scale * (naturalHeight / naturalWidth)
    ring
  refine ⟨_, hb, hx, hy, fun hmx0 => ?_⟩
  rw [hx, hy]
  exact mul_div_cancel_left₀ _ (mul_pos hmx0 hscale).ne'

/-- Concrete instance of `computeDisplayBounds_size` over the rationals,
with the toy projection pair `projEx` / `unprojEx`: a 300-pixel-wide
viewport, scale 1/2 and a 100-by-200 image give a box that projects to a
150-by-300 pixel rectangle (ratio 2, the image aspect ratio). -/
theorem computeDisplayBounds_size_wit :
    computeDisplayBounds projEx unprojEx ⟨300, 150⟩ ⟨0, 0⟩ (some (1/2)) 100 200
      = some ⟨-150, -75, 150, 75⟩ ∧
    (projEx (Bounds.getNorthEast ⟨-150, -75, 150, 75⟩)).x
        - (projEx (Bounds.getNorthWest ⟨-150, -75, 150, 75⟩)).x
      = (⟨300, 150⟩ : Pointxy ℚ).x * (1/2) ∧
    (projEx (Bounds.getSouthWest ⟨-150, -75, 150, 75⟩)).y
        - (projEx (Bounds.getNorthWest ⟨-150, -75, 150, 75⟩)).y
      = (⟨300, 150⟩ : Pointxy ℚ).x * (1/2) * ((200 : ℚ) / 100) ∧
    ((projEx (Bounds.getSouthWest ⟨-150, -75, 150, 75⟩)).y
          - (projEx (Bounds.getNorthWest ⟨-150, -75, 150, 75⟩)).y)
        / ((projEx (Bounds.getNorthEast ⟨-150, -75, 150, 75⟩)).x
          - (projEx (Bounds.getNorthWest ⟨-150, -75, 150, 75⟩)).x)
      = (200 : ℚ) / 100 := by
  obtain ⟨b, hb, h1, h2, h3⟩ :=
    computeDisplayBounds_size projEx unprojEx ⟨300, 150⟩ ⟨0, 0⟩ (1/2) 100 200
      (fun q => by simp [projEx, unprojEx])
      (fun p q h => by simpa [unprojEx] using h)
      (fun p q h => by simpa [unprojEx] using neg_le_neg h)
      (fun p q h => by simp [projEx, h])
      (fun p q h => by simp [projEx, h])
      (by norm_num) (by norm_num) (by norm_num) (by norm_num)
  have hbv : b = ⟨-150, -75, 150, 75⟩ := by
    have h := hb
    rw [show computeDisplayBounds projEx unprojEx ⟨300, 150⟩ ⟨0, 0⟩ (some (1/2))
          (100 : ℚ) 200 = some ⟨-150, -75, 150, 75⟩ from by
        norm_num [computeDisplayBounds, latLngBounds, projEx, unprojEx,
          min_def, max_def, Bounds.mk.injEq]] at h
    injection h with h
    exact h.symm
  subst hbv
  exact ⟨hb, h1, h2, h3 (by norm_num)⟩

/-- C8: while an overlay is displayed, an opacity edit (`updateOpacity`)
never alters the current bounding box, the handles or the markers — only
the overlay's opacity field changes — while a scale edit
(`updateImageDisplay` with a ready, non-degenerate image) always replaces
the bounding box with a newly computed one and applies the current opacity
input value to the newly created overlay object. -/
theorem displayed_partial_updates (proj : LatLng K → Pointxy K)
    (unproj : Pointxy K → LatLng K) (mapSize : Pointxy K) (c : LatLng K)
    (scaleRaw : Option K) (opacityRaw : Option ℤ)
    (naturalWidth naturalHeight : K) (s : AppState K)
    (hdisp : s.overlay.isSome = true)
    (hW : naturalWidth ≠ 0) (hH : naturalHeight ≠ 0) :
    (updateOpacity opacityRaw s).overlay.map Overlay.bounds
        = s.overlay.map Overlay.bounds ∧
    (updateOpacity opacityRaw s).dragHandles = s.dragHandles ∧
    (updateOpacity opacityRaw s).markers = s.markers ∧
    ∃ b : Bounds K,
      computeDisplayBounds proj unproj mapSize c scaleRaw
          naturalWidth naturalHeight = some b ∧
      updateImageDisplay proj unproj mapSize c scaleRaw opacityRaw true
          naturalWidth naturalHeight s
        = ⟨some ⟨b, getDisplayOpacity opacityRaw⟩, handlesFor b, s.markers⟩ := by
  obtain ⟨ovOpt, dh, mks⟩ := s
  have hcb : ∃ b, computeDisplayBounds proj unproj mapSize c scaleRaw
      naturalWidth naturalHeight = some b := by
    simp only [computeDisplayBounds, hW, hH, or_self, if_false]
    exact ⟨_, rfl⟩
  obtain ⟨b, hb⟩ := hcb
  rcases ovOpt with _ | ov
  · simp at hdisp
  · refine ⟨?_, ?_, ?_, b, hb, ?_⟩ <;>
      simp [updateOpacity, updateImageDisplay, hb]

/-- Concrete instance of `displayed_partial_updates` over the rationals:
an opacity edit to 80 keeps the displayed box, while a scale edit
recomputes the box and carries the opacity input over to the new overlay. -/
theorem displayed_partial_updates_wit :
    (updateOpacity (some 80)
        (⟨some ⟨⟨0, 0, 1, 1⟩, 1/2⟩, [⟨0, 0⟩], [⟨2, 2⟩]⟩ : AppState ℚ)).overlay.map
          Overlay.bounds
      = (⟨some ⟨⟨0, 0, 1, 1⟩, 1/2⟩, [⟨0, 0⟩], [⟨2, 2⟩]⟩
          : AppState ℚ).overlay.map Overlay.bounds ∧
    (updateOpacity (some 80)
        (⟨some ⟨⟨0, 0, 1, 1⟩, 1/2⟩, [⟨0, 0⟩], [⟨2, 2⟩]⟩ : AppState ℚ)).dragHandles
      = (⟨some ⟨⟨0, 0, 1, 1⟩, 1/2⟩, [⟨0, 0⟩], [⟨2, 2⟩]⟩ : AppState ℚ).dragHandles ∧
    (updateOpacity (some 80)
        (⟨some ⟨⟨0, 0, 1, 1⟩, 1/2⟩, [⟨0, 0⟩], [⟨2, 2⟩]⟩ : AppState ℚ)).markers
      = (⟨some ⟨⟨0, 0, 1, 1⟩, 1/2⟩, [⟨0, 0⟩], [⟨2, 2⟩]⟩ : AppState ℚ).markers ∧
    computeDisplayBounds projEx unprojEx ⟨300, 150⟩ ⟨0, 0⟩ (some (1/2)) 100 200
      = some ⟨-150, -75, 150, 75⟩ ∧
    updateImageDisplay projEx unprojEx ⟨300, 150⟩ ⟨0, 0⟩ (some (1/2)) (some 80)
        true 100 200 (⟨some ⟨⟨0, 0, 1, 1⟩, 1/2⟩, [⟨0, 0⟩], [⟨2, 2⟩]⟩ : AppState ℚ)
      = ⟨some ⟨⟨-150, -75, 150, 75⟩, getDisplayOpacity (some 80)⟩,
          handlesFor ⟨-150, -75, 150, 75⟩,
          (⟨some ⟨⟨0, 0, 1, 1⟩, 1/2⟩, [⟨0, 0⟩], [⟨2, 2⟩]⟩ : AppState ℚ).markers⟩ := by
  obtain ⟨h1, h2, h3, b, hb, h4⟩ :=
    displayed_partial_updates projEx unprojEx ⟨300, 150⟩ ⟨0, 0⟩ (some (1/2))
      (some 80) 100 200 ⟨some ⟨⟨0, 0, 1, 1⟩, 1/2⟩, [⟨0, 0⟩], [⟨2, 2⟩]⟩
      rfl (by norm_num) (by norm_num)
  have hbv : b = ⟨-150, -75, 150, 75⟩ := by
    have h := hb
    rw [show computeDisplayBounds projEx unprojEx ⟨300, 150⟩ ⟨0, 0⟩ (some (1/2))
          (100 : ℚ) 200 = some ⟨-150, -75, 150, 75⟩ from by
        norm_num [computeDisplayBounds, latLngBounds, projEx, unprojEx,
          min_def, max_def, Bounds.mk.injEq]] at h
    injection h with h
    exact h.symm
  subst hbv
  exact ⟨h1, h2, h3, hb, h4⟩

/-- C9 refuted at a concrete input.  State: an overlay is displayed with
handles and one imported marker; the current image then becomes degenerate
(zero natural width — for example, after a later file selection fires
`onload` with zero dimensions, which replaces `currentImage.src` but is
caught by the onload guard, leaving the old overlay up).  A subsequent
scale edit calls `updateImageDisplay`, which removes the overlay and its
handles BEFORE the degenerate-size guard, so the abort leaves the prior
overlay and handles destroyed, not untouched (the markers do survive). -/
theorem updateImageDisplay_degenerate_cex :
    ((⟨some ⟨⟨0, 0, 1, 1⟩, 1/2⟩, [⟨1, 0⟩], [⟨2, 2⟩]⟩ : AppState ℚ).overlay
        ≠ none) ∧
    (updateImageDisplay projEx unprojEx ⟨300, 150⟩ ⟨0, 0⟩ (some 1) (some 50)
        true 0 100 ⟨some ⟨⟨0, 0, 1, 1⟩, 1/2⟩, [⟨1, 0⟩], [⟨2, 2⟩]⟩).overlay
      = none ∧
    (updateImageDisplay projEx unprojEx ⟨300, 150⟩ ⟨0, 0⟩ (some 1) (some 50)
        true 0 100 ⟨some ⟨⟨0, 0, 1, 1⟩, 1/2⟩, [⟨1, 0⟩], [⟨2, 2⟩]⟩).dragHandles
      = [] ∧
    updateImageDisplay projEx unprojEx ⟨300, 150⟩ ⟨0, 0⟩ (some 1) (some 50)
        true 0 100 ⟨some ⟨⟨0, 0, 1, 1⟩, 1/2⟩, [⟨1, 0⟩], [⟨2, 2⟩]⟩
      ≠ ⟨some ⟨⟨0, 0, 1, 1⟩, 1/2⟩, [⟨1, 0⟩], [⟨2, 2⟩]⟩ := by
  simp [updateImageDisplay, computeDisplayBounds, AppState.mk.injEq]

/-- C9 amended: on a degenerate image (`naturalWidth = 0` or
`naturalHeight = 0`) the geometry update aborts without crashing and the
imported markers are always left untouched; the `currentImage.onload` path
checks the dimensions first and leaves the whole state untouched; but
`updateImageDisplay` itself tears down a currently displayed overlay and
its drag handles before its degenerate-size guard, so on that path the
prior overlay and handles are removed rather than preserved. -/
theorem updateImageDisplay_degenerate (proj : LatLng K → Pointxy K)
    (unproj : Pointxy K → LatLng K) (mapSize : Pointxy K) (c : LatLng K)
    (scaleRaw : Option K) (opacityRaw : Option ℤ) (imageReady : Bool)
    (naturalWidth naturalHeight : K) (s : AppState K)
    (hdeg : naturalWidth = 0 ∨ naturalHeight = 0) :
    (updateImageDisplay proj unproj mapSize c scaleRaw opacityRaw imageReady
        naturalWidth naturalHeight s).markers = s.markers ∧
    updateImageDisplay proj unproj mapSize c scaleRaw opacityRaw imageReady
        naturalWidth naturalHeight s
      = (if imageReady && s.overlay.isSome
          then { s with overlay := none, dragHandles := [] } else s) ∧
    currentImageOnload proj unproj mapSize c scaleRaw opacityRaw
        naturalWidth naturalHeight s = s := by
  have hnone : computeDisplayBounds proj unproj mapSize c scaleRaw
      naturalWidth naturalHeight = none := by
    simp only [computeDisplayBounds, if_pos hdeg]
  have hmain : updateImageDisplay proj unproj mapSize c scaleRaw opacityRaw
      imageReady naturalWidth naturalHeight s
      = (if imageReady && s.overlay.isSome
          then { s with overlay := none, dragHandles := [] } else s) := by
    cases imageReady
    · simp [updateImageDisplay]
    · rcases hov : s.overlay with _ | ov <;>
        simp [updateImageDisplay, hnone, hov]
  refine ⟨?_, hmain, ?_⟩
  · rw [hmain]
    split <;> rfl
  · simp [currentImageOnload, if_pos hdeg]

/-- Concrete instance of `updateImageDisplay_degenerate` over the
rationals, at the same state as the counterexample. -/
theorem updateImageDisplay_degenerate_wit :
    ((0 : ℚ) = 0 ∨ (100 : ℚ) = 0) ∧
    ((updateImageDisplay projEx unprojEx ⟨300, 150⟩ ⟨0, 0⟩ (some 1) (some 50)
          true 0 100 ⟨some ⟨⟨0, 0, 1, 1⟩, 1/2⟩, [⟨1, 0⟩], [⟨2, 2⟩]⟩).markers
        = (⟨some ⟨⟨0, 0, 1, 1⟩, 1/2⟩, [⟨1, 0⟩], [⟨2, 2⟩]⟩
            : AppState ℚ).markers ∧
      updateImageDisplay projEx unprojEx ⟨300, 150⟩ ⟨0, 0⟩ (some 1) (some 50)
          true 0 100 ⟨some ⟨⟨0, 0, 1, 1⟩, 1/2⟩, [⟨1, 0⟩], [⟨2, 2⟩]⟩
        = (if true && (⟨some ⟨⟨0, 0, 1, 1⟩, 1/2⟩, [⟨1, 0⟩], [⟨2, 2⟩]⟩
              : AppState ℚ).overlay.isSome
            then { (⟨some ⟨⟨0, 0, 1, 1⟩, 1/2⟩, [⟨1, 0⟩], [⟨2, 2⟩]⟩ : AppState ℚ)
                with overlay := none, dragHandles := [] }
            else ⟨some ⟨⟨0, 0, 1, 1⟩, 1/2⟩, [⟨1, 0⟩], [⟨2, 2⟩]⟩) ∧
      currentImageOnload projEx unprojEx ⟨300, 150⟩ ⟨0, 0⟩ (some 1) (some 50)
          0 100 ⟨some ⟨⟨0, 0, 1, 1⟩, 1/2⟩, [⟨1, 0⟩], [⟨2, 2⟩]⟩
        = ⟨some ⟨⟨0, 0, 1, 1⟩, 1/2⟩, [⟨1, 0⟩], [⟨2, 2⟩]⟩) :=
  ⟨Or.inl rfl,
    updateImageDisplay_degenerate projEx unprojEx ⟨300, 150⟩ ⟨0, 0⟩ (some 1)
      (some 50) true 0 100 ⟨some ⟨⟨0, 0, 1, 1⟩, 1/2⟩, [⟨1, 0⟩], [⟨2, 2⟩]⟩
      (Or.inl rfl)⟩

end DisplayClaims

section DmsClaims



lemma digit_not_ws (ch : Char) (h : ch.isDigit = true) : ch.isWhitespace = false := by
  by_contra hws
  rw [Bool.not_eq_false] at hws
  rcases (by simpa [Char.isWhitespace] using hws :
      ((ch = ' ' ∨ ch = '\t') ∨ ch = '\r') ∨ ch = '\n') with ((rfl | rfl) | rfl) | rfl <;>
    exact absurd h (by decide)

lemma takeWhile_digits (l : List Char) (h : ∀ ch ∈ l, ch.isDigit = true) :
    l.takeWhile Char.isDigit = l := by
  induction l with
  | nil => rfl
  | cons c cs ih =>
      rw [List.takeWhile_cons, if_pos (h c (List.mem_cons_self c cs)),
        ih (fun ch hch => h ch (List.mem_cons_of_mem c hch))]

lemma dropWhile_ws_digits (l : List Char) (h : ∀ ch ∈ l, ch.isDigit = true) :
    l.dropWhile Char.isWhitespace = l := by
  rcases l with _ | ⟨c, cs⟩
  · rfl
  · rw [List.dropWhile_cons, if_neg]
    rw [digit_not_ws c (h c (List.mem_cons_self c cs))]
    simp

lemma jsParseInt_digits (l : List Char) (hne : l ≠ []) (h : ∀ ch ∈ l, ch.isDigit = true) :
    jsParseInt (String.mk l) = some (decValue l : ℤ) := by
  rcases l with _ | ⟨c, cs⟩
  · exact absurd rfl hne
  · have hc : c.isDigit = true := h c (List.mem_cons_self c cs)
    have hdw : (c :: cs).dropWhile Char.isWhitespace = c :: cs := dropWhile_ws_digits _ h
    have hcdash : ¬ (c = '-') := fun hh => by subst hh; exact absurd hc (by decide)
    have hcplus : ¬ (c = '+') := fun hh => by subst hh; exact absurd hc (by decide)
    simp only [jsParseInt, hdw, if_neg hcdash, if_neg hcplus, parseIntCore,
      takeWhile_digits _ h]
    simp

lemma parseIntCore_eq_none (l : List Char) :
    parseIntCore l = none ↔ ((l.headD 'x').isDigit = false) := by
  unfold parseIntCore
  rcases l with _ | ⟨c2, r⟩
  · exact iff_of_true rfl (by decide)
  · rw [List.takeWhile_cons]
    by_cases hd : c2.isDigit = true
    · simp [hd]
    · rw [Bool.not_eq_true] at hd
      simp [hd]

lemma jsParseInt_eq_none (t : String) :
    jsParseInt t = none ↔ hasLeadingInt t = false := by
  unfold jsParseInt hasLeadingInt
  rcases hdw : t.data.dropWhile Char.isWhitespace with _ | ⟨c, rest⟩ <;> dsimp only
  · simp
  · by_cases hsign : c = '-' ∨ c = '+'
    · rw [if_pos hsign]
      rcases hsign with rfl | rfl
      · rw [if_pos rfl, ← parseIntCore_eq_none rest]
        cases parseIntCore rest <;> simp
      · rw [if_neg (by decide), if_pos rfl, ← parseIntCore_eq_none rest]
        cases parseIntCore rest <;> simp
    · push_neg at hsign
      rw [if_neg hsign.1, if_neg hsign.2,
        if_neg (show ¬(c = '-' ∨ c = '+') from by tauto)]
      rw [show (c.isDigit = false) ↔ (((c :: rest).headD 'x').isDigit = false) from by simp,
        ← parseIntCore_eq_none (c :: rest)]
      cases parseIntCore (c :: rest) <;> simp



lemma jsPadEnd_data (s : String) (n : Nat) (c : Char) :
    (jsPadEnd s n c).data = s.data ++ List.replicate (n - s.length) c := rfl

lemma jsPadEnd_digits (s : String) (n : Nat)
    (h : ∀ ch ∈ s.data, ch.isDigit = true) :
    ∀ ch ∈ (jsPadEnd s n '0').data, ch.isDigit = true := by
  intro ch hch
  rw [jsPadEnd_data] at hch
  rcases List.mem_append.mp hch with h1 | h1
  · exact h ch h1
  · rw [List.eq_of_mem_replicate h1]
    decide

lemma jsPadEnd_length (s : String) (n : Nat) (c : Char) :
    (jsPadEnd s n c).data.length = max s.length n := by
  rw [jsPadEnd_data, List.length_append, List.length_replicate]
  have hsl : s.data.length = s.length := rfl
  omega

/-- C6 refuted at a concrete input.  The claim says the parser fails
exactly when the input is empty or not numeric-coercible.  The latitude
input "1a345678" is non-empty and NOT numeric-coercible (JavaScript
`Number('1a345678')` is NaN), so per the claim the parser must fail; but
`parseInt` reads the digit prefixes of each fixed-width slice, so
`dmsStrToDeg` returns `1 + 34/60 + 56.78/3600`, not NaN. -/
theorem dmsStrToDeg_coercible_cex :
    ¬ (dmsStrToDeg "1a345678" false = none ↔
        ("1a345678" = "" ∨ jsNumericCoercible "1a345678" = false)) := by decide

/-- C6 amended: `dmsStrToDeg` fails (NaN, modelled `none`) exactly when
its input is the empty string, or one of the three fixed-width integer
fields (degrees, minutes, integer seconds) of the zero-padded string has
no parseable leading integer — that is, after optional whitespace and
sign no decimal digit follows.  Numeric-coercibility of the whole string
is neither necessary nor sufficient.  In particular `parseDms("", false)`
fails (the `s = ""` case of the right-hand side). -/
theorem dmsStrToDeg_none_iff (s : String) (isLongitude : Bool) :
    dmsStrToDeg s isLongitude = none ↔
      (s = "" ∨
        hasLeadingInt (jsSlice (jsPadEnd s (if isLongitude then 9 else 8) '0') 0
            (if isLongitude then 3 else 2)) = false ∨
        hasLeadingInt (jsSlice (jsPadEnd s (if isLongitude then 9 else 8) '0')
            (if isLongitude then 3 else 2) (if isLongitude then 5 else 4)) = false ∨
        hasLeadingInt (jsSlice (jsPadEnd s (if isLongitude then 9 else 8) '0')
            (if isLongitude then 5 else 4) (if isLongitude then 7 else 6)) = false) := by
  by_cases hs : s = ""
  · simp [hs, dmsStrToDeg]
  · unfold dmsStrToDeg
    rw [if_neg hs]
    cases isLongitude
    · dsimp only
      rcases h1 : jsParseInt (jsSlice (jsPadEnd s 8 '0') 0 2) with _ | d <;>
        rcases h2 : jsParseInt (jsSlice (jsPadEnd s 8 '0') 2 4) with _ | m <;>
          rcases h3 : jsParseInt (jsSlice (jsPadEnd s 8 '0') 4 6) with _ | c3 <;>
            simp [h1, h2, h3, hs, ← jsParseInt_eq_none]
    · dsimp only
      rcases h1 : jsParseInt (jsSlice (jsPadEnd s 9 '0') 0 3) with _ | d <;>
        rcases h2 : jsParseInt (jsSlice (jsPadEnd s 9 '0') 3 5) with _ | m <;>
          rcases h3 : jsParseInt (jsSlice (jsPadEnd s 9 '0') 5 7) with _ | c3 <;>
            simp [h1, h2, h3, hs, ← jsParseInt_eq_none]



lemma jsParseInt_slice (s : String) (a b : Nat)
    (hpd : ∀ ch ∈ s.data, ch.isDigit = true)
    (hlen : ((s.data.drop a).take (b - a)).length ≠ 0) :
    jsParseInt (jsSlice s a b) = some (decValue ((s.data.drop a).take (b - a)) : ℤ) := by
  unfold jsSlice
  apply jsParseInt_digits
  · intro hnil
    rw [hnil] at hlen
    simp at hlen
  · intro ch hch
    exact hpd ch (List.drop_subset _ _ (List.take_subset _ _ hch))

lemma dmsStrToDeg_digits_lat (s : String) (hne : s ≠ "")
    (h : ∀ ch ∈ s.data, ch.isDigit = true) :
    dmsStrToDeg s false
      = some ((decValue ((jsPadEnd s 8 '0').data.take 2) : ℚ)
          + (decValue (((jsPadEnd s 8 '0').data.drop 2).take 2) : ℚ) / 60
          + ((decValue (((jsPadEnd s 8 '0').data.drop 4).take 2) : ℚ)
            + (decValue ((jsPadEnd s 8 '0').data.drop 6) : ℚ)
              / 10 ^ ((jsPadEnd s 8 '0').data.drop 6).length) / 3600) := by
  have hpd : ∀ ch ∈ (jsPadEnd s 8 '0').data, ch.isDigit = true := jsPadEnd_digits s 8 h
  have hlen : 8 ≤ (jsPadEnd s 8 '0').data.length := by
    rw [jsPadEnd_length]
    exact le_max_right _ _
  have hp1 := jsParseInt_slice (jsPadEnd s 8 '0') 0 2 hpd
    (by rw [List.length_take, List.length_drop]; omega)
  have hp2 := jsParseInt_slice (jsPadEnd s 8 '0') 2 4 hpd
    (by rw [List.length_take, List.length_drop]; omega)
  have hp3 := jsParseInt_slice (jsPadEnd s 8 '0') 4 6 hpd
    (by rw [List.length_take, List.length_drop]; omega)
  have hfrac : jsParseFloatFrac (jsSliceFrom (jsPadEnd s 8 '0') 6)
      = (decValue ((jsPadEnd s 8 '0').data.drop 6) : ℚ)
        / 10 ^ ((jsPadEnd s 8 '0').data.drop 6).length := by
    unfold jsParseFloatFrac jsSliceFrom
    rw [show (String.mk ((jsPadEnd s 8 '0').data.drop 6)).data
        = (jsPadEnd s 8 '0').data.drop 6 from rfl]
    rw [takeWhile_digits _ (fun ch hch => hpd ch (List.drop_subset _ _ hch))]
  unfold dmsStrToDeg
  rw [if_neg hne]
  simp only [Bool.false_eq_true, if_false]
  rw [hp1, hp2, hp3]
  dsimp only
  rw [hfrac]
  refine congrArg some ?_
  push_cast
  rw [List.drop_zero]

lemma dmsStrToDeg_digits_lng (s : String) (hne : s ≠ "")
    (h : ∀ ch ∈ s.data, ch.isDigit = true) :
    dmsStrToDeg s true
      = some ((decValue ((jsPadEnd s 9 '0').data.take 3) : ℚ)
          + (decValue (((jsPadEnd s 9 '0').data.drop 3).take 2) : ℚ) / 60
          + ((decValue (((jsPadEnd s 9 '0').data.drop 5).take 2) : ℚ)
            + (decValue ((jsPadEnd s 9 '0').data.drop 7) : ℚ)
              / 10 ^ ((jsPadEnd s 9 '0').data.drop 7).length) / 3600) := by
  have hpd : ∀ ch ∈ (jsPadEnd s 9 '0').data, ch.isDigit = true := jsPadEnd_digits s 9 h
  have hlen : 9 ≤ (jsPadEnd s 9 '0').data.length := by
    rw [jsPadEnd_length]
    exact le_max_right _ _
  have hp1 := jsParseInt_slice (jsPadEnd s 9 '0') 0 3 hpd
    (by rw [List.length_take, List.length_drop]; omega)
  have hp2 := jsParseInt_slice (jsPadEnd s 9 '0') 3 5 hpd
    (by rw [List.length_take, List.length_drop]; omega)
  have hp3 := jsParseInt_slice (jsPadEnd s 9 '0') 5 7 hpd
    (by rw [List.length_take, List.length_drop]; omega)
  have hfrac : jsParseFloatFrac (jsSliceFrom (jsPadEnd s 9 '0') 7)
      = (decValue ((jsPadEnd s 9 '0').data.drop 7) : ℚ)
        / 10 ^ ((jsPadEnd s 9 '0').data.drop 7).length := by
    unfold jsParseFloatFrac jsSliceFrom
    rw [show (String.mk ((jsPadEnd s 9 '0').data.drop 7)).data
        = (jsPadEnd s 9 '0').data.drop 7 from rfl]
    rw [takeWhile_digits _ (fun ch hch => hpd ch (List.drop_subset _ _ hch))]
  unfold dmsStrToDeg
  rw [if_neg hne]
  simp only [if_true]
  rw [hp1, hp2, hp3]
  dsimp only
  rw [hfrac]
  refine congrArg some ?_
  push_cast
  rw [List.drop_zero]

/-- C4: the DMS parser right-pads its input with '0' to 8 characters for
latitude (DDMMSSss) and 9 for longitude (DDDMMSSss), and returns
`deg + min/60 + sec/3600` with `sec = secondsInt + 0.fractionalDigits`,
where the fields are the decimal values of the fixed-width slices of the
padded digit string; in particular the latitude input "348536" yields
exactly `34 + 85/60 + 36/3600`. -/
theorem dmsStrToDeg_fixed_width :
    dmsStrToDeg "348536" false = some (34 + 85/60 + 36/3600) ∧
    (∀ s : String, s ≠ "" → (∀ ch ∈ s.data, ch.isDigit = true) →
      dmsStrToDeg s false
        = some ((decValue ((jsPadEnd s 8 '0').data.take 2) : ℚ)
            + (decValue (((jsPadEnd s 8 '0').data.drop 2).take 2) : ℚ) / 60
            + ((decValue (((jsPadEnd s 8 '0').data.drop 4).take 2) : ℚ)
              + (decValue ((jsPadEnd s 8 '0').data.drop 6) : ℚ)
                / 10 ^ ((jsPadEnd s 8 '0').data.drop 6).length) / 3600)) ∧
    (∀ s : String, s ≠ "" → (∀ ch ∈ s.data, ch.isDigit = true) →
      dmsStrToDeg s true
        = some ((decValue ((jsPadEnd s 9 '0').data.take 3) : ℚ)
            + (decValue (((jsPadEnd s 9 '0').data.drop 3).take 2) : ℚ) / 60
            + ((decValue (((jsPadEnd s 9 '0').data.drop 5).take 2) : ℚ)
              + (decValue ((jsPadEnd s 9 '0').data.drop 7) : ℚ)
                / 10 ^ ((jsPadEnd s 9 '0').data.drop 7).length) / 3600)) := by
  refine ⟨?_, fun s hne h => dmsStrToDeg_digits_lat s hne h,
    fun s hne h => dmsStrToDeg_digits_lng s hne h⟩
  rw [dmsStrToDeg_digits_lat "348536" (by decide) (by decide)]
  norm_num [show decValue ((jsPadEnd "348536" 8 '0').data.take 2) = 34 from rfl,
    show decValue (((jsPadEnd "348536" 8 '0').data.drop 2).take 2) = 85 from rfl,
    show decValue (((jsPadEnd "348536" 8 '0').data.drop 4).take 2) = 36 from rfl,
    show decValue ((jsPadEnd "348536" 8 '0').data.drop 6) = 0 from rfl,
    show ((jsPadEnd "348536" 8 '0').data.drop 6).length = 2 from rfl]

/-- Concrete instance of `dmsStrToDeg_fixed_width` at the digit string
"123456": padded to "12345600", it parses to `12 + 34/60 + 56/3600`. -/
theorem dmsStrToDeg_fixed_width_wit :
    dmsStrToDeg "123456" false = some (12 + 34/60 + 56/3600) := by
  rw [dmsStrToDeg_fixed_width.2.1 "123456" (by decide) (by decide)]
  norm_num [show decValue ((jsPadEnd "123456" 8 '0').data.take 2) = 12 from rfl,
    show decValue (((jsPadEnd "123456" 8 '0').data.drop 2).take 2) = 34 from rfl,
    show decValue (((jsPadEnd "123456" 8 '0').data.drop 4).take 2) = 56 from rfl,
    show decValue ((jsPadEnd "123456" 8 '0').data.drop 6) = 0 from rfl,
    show ((jsPadEnd "123456" 8 '0').data.drop 6).length = 2 from rfl]



lemma gpsRowMarker_eq (row : List String) :
    gpsRowMarker row = if rowAccepted row then some (rowMarker row) else none := by
  by_cases h5 : row.length < 5
  · have h4 : row.getD 4 "" = "" :=
      List.getD_eq_default _ _ (show row.length ≤ 4 by omega)
    have hemp : dmsStrToDeg "" true = none := by simp [dmsStrToDeg]
    unfold gpsRowMarker rowAccepted
    rw [if_pos h5, h4, hemp]
    rcases hd3 : dmsStrToDeg (row.getD 3 "") false with _ | lat <;> simp
  · unfold gpsRowMarker rowAccepted rowMarker
    rw [if_neg h5]
    rcases hd3 : dmsStrToDeg (row.getD 3 "") false with _ | lat
    · rcases hd4 : dmsStrToDeg (row.getD 4 "") true with _ | lng <;> simp
    · rcases hd4 : dmsStrToDeg (row.getD 4 "") true with _ | lng
      · simp
      · dsimp only
        by_cases hn : ((row.getD 2 "") ++ " " ++ (row.getD 6 "")).trim = ""
        · have hn2 : (row[2]?.getD "" ++ " " ++ row[6]?.getD "").trim = "" := by
            simpa [List.getD] using hn
          simp [hn2]
        · by_cases hpos : lat ≤ 0 ∨ lng ≤ 0
          · have hnc : ¬ ((0:ℚ) < lat ∧ (0:ℚ) < lng) := by
              rcases hpos with h | h
              · exact fun hc => absurd hc.1 (not_lt.mpr h)
              · exact fun hc => absurd hc.2 (not_lt.mpr h)
            simp [hn, hpos, hnc]
          · push_neg at hpos
            have ha : ¬ (lat ≤ 0) := not_le.mpr hpos.1
            have hb : ¬ (lng ≤ 0) := not_le.mpr hpos.2
            simp [hn, ha, hb, hpos.1, hpos.2]

lemma gpsImport_go (rows : List (List String))
    (acc : List (String × ℚ × ℚ) × ℕ) :
    rows.foldl
      (fun acc row =>
        match gpsRowMarker row with
        | some m => (acc.1 ++ [m], acc.2 + 1)
        | none => acc) acc
      = (acc.1 ++ (rows.filter rowAccepted).map rowMarker,
          acc.2 + (rows.filter rowAccepted).length) := by
  induction rows generalizing acc with
  | nil => simp
  | cons r rs ih =>
      rw [List.foldl_cons, gpsRowMarker_eq r]
      by_cases hr : rowAccepted r = true
      · rw [if_pos hr, ih, List.filter_cons_of_pos hr]
        simp [List.append_assoc]
        omega
      · rw [if_neg (by simpa using hr), ih, List.filter_cons_of_neg (by simpa using hr)]

/-- C7: during bulk marker import, with the header row excluded, a row
creates a marker and increments the created-marker count if and only if
its joined label is non-empty after trimming, both coordinates parse, and
both parsed coordinates are strictly positive; rows failing any condition
(including short rows, whose coordinate cells are missing and therefore
do not parse) are skipped and leave the count unchanged.  The created
markers are exactly the accepted rows' markers, in order, and the count
equals their number. -/
theorem gpsImport_filter_spec (jsonData : List (List String)) :
    gpsImport jsonData
      = (((jsonData.drop 1).filter rowAccepted).map rowMarker,
          ((jsonData.drop 1).filter rowAccepted).length) := by
  unfold gpsImport
  rw [gpsImport_go]
  simp


end DmsClaims

end GSImap
